import Mathlib

/-!
Verification of the ToDo task-token application (src/App.tsx).

The file gives a shallow embedding of the three core operations of the
Task Token Protocol Engine — task creation (`handleCreateSubmit`), task
loading (`listTasks`, the body of the task-loading `useEffect`), and task
completion (`handleCompleteSubmit`) — together with the data model they
operate on, and proves the spec's claims about them.

External collaborators (the Babbage SDK's `encrypt`/`decrypt`, the
PushDrop codec's `create`/`decode`/`redeem`, the ledger's `createAction`,
and the basket reader `getTransactionOutputs`) are not part of this
repository; they are modelled as parameters of an `Env` record (pure
functions, `Option`-valued where the app's `try`/`catch` observes their
failure) and as explicit result values for the ledger, matching the
interface contracts of spec section 6.  Byte buffers are modelled as
`List Char` and scripts as the codec's field-list representation.
-/

namespace ToDo

/-- Byte buffers (JS `Buffer`/`Uint8Array`), modelled as character lists;
`Buffer.from(string)` is `String.data`. -/
abbrev Bytes := List Char

/-- Locking scripts, treated opaquely by the engine; modelled as the
codec-side field representation. -/
abbrev Script := List Bytes

/-- The namespace address for the ToDo protocol (App.tsx line 32). -/
def TODO_PROTO_ADDR : String := "1ToDoDtKreEzbHYKFjmoBuduFmSXXUGZG"

/-- The on-ledger token backing a Task (types/types.ts `Token`), as the
engine builds it: the object spread `...newToDoToken` contributes a `log`
field on the creation path and `...task.envelope` contributes the
provenance envelope on the loading path, then `lockingScript`, `txid`
and `outputIndex` are set explicitly.  `outputIndex` is `none` when the
JS value is `undefined`. -/
structure Token where
  envelope : List (String × String) := []
  log : Option String := none
  lockingScript : Script
  txid : String
  outputIndex : Option Nat
deriving DecidableEq

/-- A entry of the Task Collection, as a JS object shape.  The success
paths populate `task`, `sats` and `token`; the per-item failure path of
the loading effect returns `\x7b ...task, task: sentinel \x7d`, which spreads the
raw basket output, so the raw fields `outputScript`, `txid`, `vout`,
`amount` and `envelope` appear at top level and `sats`/`token` are left
`undefined` (`none`). -/
structure TaskObj where
  task : String
  sats : Option Int := none
  token : Option Token := none
  outputScript : Option Script := none
  txid : Option String := none
  vout : Option Nat := none
  amount : Option Int := none
  envelope : Option (List (String × String)) := none
deriving DecidableEq

/-- A Task Collection entry together with its JS object reference
(heap identity): `x === selectedTask` compares the reference, not the
structure. -/
abbrev TaskRef := Nat × TaskObj

/-- One unspent output returned by `getTransactionOutputs` for the
"todo tokens" basket, with its provenance envelope. -/
structure BasketOutput where
  outputScript : Script
  txid : String
  vout : Nat
  amount : Int
  envelope : List (String × String)
deriving DecidableEq

/-- Result object of a successful `createAction` call: the txid of the
committed transaction (possibly absent) and an optional log payload. -/
structure CreateActionResult where
  txid : Option String
  log : Option String := none
deriving DecidableEq

/-- A whole-query failure of `getTransactionOutputs`: a JS error with a
`code` property (possibly `undefined`) and a message. -/
structure QueryError where
  code : Option String
  message : String
deriving DecidableEq

/-- Observable calls to external collaborators, in program order. -/
inductive CallEvent where
  | encryptCall
  | pdCreateCall
  | createActionCall
  | pdRedeemCall
deriving DecidableEq

/-- The external collaborators, at their spec-section-6 interface
boundary.  `encrypt`/`decrypt` take the protocolID and keyID and the
payload; `pdCreate` takes the field list, protocolID and keyID;
`pdDecode` recovers the field list of a script (`none` models a decode
throw); `pdRedeem` takes protocolID, keyID, prevTxId, outputIndex,
lockingScript and outputAmount (`Option` arguments model the
`selectedTask?.`-chained JS values, which may be `undefined`). -/
structure Env where
  encrypt : String → String → Bytes → Bytes
  decrypt : String → String → Bytes → Option Bytes
  pdCreate : List Bytes → String → String → Script
  pdDecode : Script → Option (List Bytes)
  pdRedeem : String → String → Option String → Option Nat → Option Script → Option Int → Script

/-- Outcome of `handleCreateSubmit`: the three validation toasts
(App.tsx lines 97-108), a caught ledger error, or success carrying the
newly built Task. -/
inductive CreateOutcome where
  | errMissingDescription
  | errInvalidAmount
  | errAmountTooSmall
  | errLedger (msg : String)
  | success (newTask : TaskObj)
deriving DecidableEq

/-- The validation rejections of `handleCreateSubmit`. -/
def CreateOutcome.isValidationError : CreateOutcome → Bool
  | .errMissingDescription => true
  | .errInvalidAmount => true
  | .errAmountTooSmall => true
  | .errLedger _ => false
  | .success _ => false

/-- Task creation (App.tsx `handleCreateSubmit`, lines 93-209).
`createTask` and `createAmount` are the dialog state; a `none` amount
models JS `NaN`.  `ledgerRes` is the `createAction` response
(`Except.error` models a rejected ledger action caught by the
`try`/`catch`).  Returns the outcome, the new Task Collection, and the
trace of collaborator calls. -/
def handleCreateSubmit (env : Env) (ledgerRes : Except String CreateActionResult)
    (createTask : String) (createAmount : Option Int) (tasks : List TaskObj) :
    CreateOutcome × List TaskObj × List CallEvent :=
  if createTask = "" then
    (.errMissingDescription, tasks, [])
  else
    match createAmount with
    | none => (.errInvalidAmount, tasks, [])
    | some amt =>
      if amt = 0 then (.errInvalidAmount, tasks, [])
      else if amt < 500 then (.errAmountTooSmall, tasks, [])
      else
        let encryptedTask := env.encrypt "todo list" "1" createTask.data
        let bitcoinOutputScript :=
          env.pdCreate [TODO_PROTO_ADDR.data, encryptedTask] "todo list" "1"
        match ledgerRes with
        | .error msg =>
          (.errLedger msg, tasks, [.encryptCall, .pdCreateCall, .createActionCall])
        | .ok newToDoToken =>
          let txid := newToDoToken.txid.getD ""
          let newTask : TaskObj :=
            { task := createTask
              sats := some amt
              token := some
                { log := newToDoToken.log
                  lockingScript := bitcoinOutputScript
                  txid := txid
                  outputIndex := some 0 } }
          (.success newTask, newTask :: tasks,
            [.encryptCall, .pdCreateCall, .createActionCall])

/-- The fixed sentinel description of the per-item failure path
(App.tsx line 382). -/
def errSentinel : String := "[error] Unable to decrypt task!"

/-- The placeholder entry built by the per-item `catch` of the loading
effect (App.tsx lines 377-384): the raw basket output is spread and only
the `task` field is set; no `sats` and no `token` field is produced. -/
def errorPlaceholderTask (o : BasketOutput) : TaskObj :=
  { task := errSentinel
    outputScript := some o.outputScript
    txid := some o.txid
    vout := some o.vout
    amount := some o.amount
    envelope := some o.envelope }

/-- Per-item decode/decrypt of one basket output (App.tsx lines
327-385): decode the locking script, take field index 1 as ciphertext,
decrypt under the fixed protocolID/keyID.  A decode throw, a missing
field 1 (`fields[1]` is `undefined`, so `Buffer.from` throws), or a
decrypt failure each land in the `catch` and yield the placeholder. -/
def decodeOneTask (env : Env) (o : BasketOutput) : TaskObj :=
  match env.pdDecode o.outputScript with
  | none => errorPlaceholderTask o
  | some fields =>
    match fields[1]? with
    | none => errorPlaceholderTask o
    | some encryptedTask =>
      match env.decrypt "todo list" "1" encryptedTask with
      | none => errorPlaceholderTask o
      | some decryptedTask =>
        { task := String.mk decryptedTask
          sats := some o.amount
          token := some
            { envelope := o.envelope
              lockingScript := o.outputScript
              txid := o.txid
              outputIndex := some o.vout } }

/-- Whether the per-item decode/decrypt of `o` succeeds. -/
def decodeOk (env : Env) (o : BasketOutput) : Bool :=
  match env.pdDecode o.outputScript with
  | none => false
  | some fields =>
    match fields[1]? with
    | none => false
    | some encryptedTask => (env.decrypt "todo list" "1" encryptedTask).isSome

/-- Outcome of the loading effect: success, a suppressed
identity-unavailable failure, or a surfaced failure toast. -/
inductive ListOutcome where
  | loaded
  | suppressed
  | surfacedError (msg : String)
deriving DecidableEq

/-- Task loading (the body of the `useEffect` at App.tsx lines 307-405;
`listTasks` in the spec).  `query` is the `getTransactionOutputs`
response.  Returns the outcome, the Task Collection after the effect
(the decoded list reversed on success, the previous collection on a
whole-query failure), and the `tasksLoading` flag after the `finally`. -/
def listTasks (env : Env) (query : Except QueryError (List BasketOutput))
    (tasks : List TaskObj) : ListOutcome × List TaskObj × Bool :=
  match query with
  | .ok tasksFromBasket =>
    (.loaded, (tasksFromBasket.map (decodeOneTask env)).reverse, false)
  | .error e =>
    if e.code = some "ERR_NO_METANET_IDENTITY" then
      (.suppressed, tasks, false)
    else
      (.surfacedError e.message, tasks, false)

/-- Outcome of `handleCompleteSubmit`: the TypeError thrown at App.tsx
line 233 when `selectedTask.token` is `undefined`, the two explicit
validation throws (lines 252-259), a caught ledger error, or success. -/
inductive CompleteOutcome where
  | errTypeError
  | errNoTaskSelected
  | errIncompleteTaskData
  | errLedger (msg : String)
  | completed
deriving DecidableEq

/-- The human-readable completion description (App.tsx lines 245-246):
the plaintext task in JS double quotes, truncated to 128 characters. -/
def completionDescription (t : String) : String :=
  let jsQuote := String.singleton (Char.ofNat 34)
  let description := "Complete a TODO task: " ++ jsQuote ++ t ++ jsQuote
  if description.length > 128 then description.take 128 else description

/-- The collection update on successful completion (App.tsx lines
289-293): `findIndex` on reference equality with the selected task, then
`splice` of that one index; no change when the reference is absent. -/
def completeRemove (selected : Nat) (oldTasks : List TaskRef) : List TaskRef :=
  match oldTasks.findIdx? (fun x => x.1 == selected) with
  | some index => oldTasks.eraseIdx index
  | none => oldTasks

/-- Task completion (App.tsx `handleCompleteSubmit`, lines 214-302).
`selectedTask` is the selected entry with its object reference (`none`
models a `null` selection).  `pdRedeem` is called first with the
`selectedTask?.`-chained arguments; the null check and the
incomplete-data check follow it, and only then is the ledger contacted.
Accessing `selectedTask?.token.txid` with a present task whose `token`
is `undefined` throws a TypeError before the redeem call. -/
def handleCompleteSubmit (env : Env) (ledgerRes : Except String CreateActionResult)
    (selectedTask : Option TaskRef) (tasks : List TaskRef) :
    CompleteOutcome × List TaskRef × List CallEvent :=
  match selectedTask with
  | none =>
    let _unlockingScript := env.pdRedeem "todo list" "1" none none none none
    (.errNoTaskSelected, tasks, [.pdRedeemCall])
  | some sel =>
    match sel.2.token with
    | none => (.errTypeError, tasks, [])
    | some tok =>
      let _unlockingScript :=
        env.pdRedeem "todo list" "1" (some tok.txid) tok.outputIndex
          (some tok.lockingScript) sel.2.sats
      let _description := completionDescription sel.2.task
      if tok.txid = "" ∨ tok.outputIndex = none then
        (.errIncompleteTaskData, tasks, [.pdRedeemCall])
      else
        match ledgerRes with
        | .error msg => (.errLedger msg, tasks, [.pdRedeemCall, .createActionCall])
        | .ok _ =>
          (.completed, completeRemove sel.1 tasks, [.pdRedeemCall, .createActionCall])

/-- A concrete collaborator instantiation for witnesses: identity
encryption and the field-list codec, which satisfy the section-6
round-trip contracts definitionally. -/
def idEnv : Env where
  encrypt := fun _ _ plaintext => plaintext
  decrypt := fun _ _ ciphertext => some ciphertext
  pdCreate := fun fields _ _ => fields
  pdDecode := fun script => some script
  pdRedeem := fun _ _ _ _ _ _ => []

/-- A concrete successful ledger response. -/
def okActionRes : CreateActionResult := { txid := some "txid0", log := none }

/-- A concrete basket output whose script decodes and decrypts under
`idEnv`. -/
def goodOutput : BasketOutput :=
  { outputScript := [['m'], ['c']], txid := "t1", vout := 0, amount := 1000, envelope := [] }

/-- A second such output. -/
def goodOutput2 : BasketOutput :=
  { outputScript := [['m'], ['d']], txid := "t2", vout := 1, amount := 700, envelope := [] }

/-- A concrete basket output whose decode fails under `idEnv` (its field
list has no index 1, so `fields[1]` is `undefined`). -/
def badOutput : BasketOutput :=
  { outputScript := [], txid := "t0", vout := 2, amount := 600, envelope := [] }

/-! ## Helper lemmas -/

theorem string_mk_data (s : String) : String.mk s.data = s := rfl

theorem decodeOneTask_of_ok (env : Env) (o : BasketOutput) (h : decodeOk env o = true) :
    ∃ fields c p,
      env.pdDecode o.outputScript = some fields
      ∧ fields[1]? = some c
      ∧ env.decrypt "todo list" "1" c = some p
      ∧ decodeOneTask env o =
        { task := String.mk p
          sats := some o.amount
          token := some
            { envelope := o.envelope
              lockingScript := o.outputScript
              txid := o.txid
              outputIndex := some o.vout } } := by
  cases hdec : env.pdDecode o.outputScript with
  | none => simp [decodeOk, hdec] at h
  | some fields =>
    cases hf : fields[1]? with
    | none => simp [decodeOk, hdec, hf] at h
    | some c =>
      cases hd : env.decrypt "todo list" "1" c with
      | none => simp [decodeOk, hdec, hf, hd] at h
      | some p =>
        exact ⟨fields, c, p, rfl, hf, hd, by simp [decodeOneTask, hdec, hf, hd]⟩

theorem decodeOneTask_of_bad (env : Env) (o : BasketOutput) (h : decodeOk env o = false) :
    decodeOneTask env o = errorPlaceholderTask o := by
  cases hdec : env.pdDecode o.outputScript with
  | none => simp [decodeOneTask, hdec]
  | some fields =>
    cases hf : fields[1]? with
    | none => simp [decodeOneTask, hdec, hf]
    | some c =>
      cases hd : env.decrypt "todo list" "1" c with
      | none => simp [decodeOneTask, hdec, hf, hd]
      | some p => simp [decodeOk, hdec, hf, hd] at h

theorem token_of_decodeOk (env : Env) (o : BasketOutput) (h : decodeOk env o = true) :
    (decodeOneTask env o).token.isSome = true := by
  obtain ⟨fields, c, p, _, _, _, heq⟩ := decodeOneTask_of_ok env o h
  rw [heq]
  rfl

theorem token_of_decodeBad (env : Env) (o : BasketOutput) (h : decodeOk env o = false) :
    (decodeOneTask env o).token = none := by
  rw [decodeOneTask_of_bad env o h]
  rfl

theorem completeRemove_append (r : Nat) (t : TaskObj) (l₁ l₂ : List TaskRef)
    (h : ∀ x ∈ l₁, x.1 ≠ r) :
    completeRemove r (l₁ ++ (r, t) :: l₂) = l₁ ++ l₂ := by
  have hnone : List.findIdx? (fun x => x.1 == r) l₁ = none := by
    rw [List.findIdx?_eq_none_iff]
    intro x hx
    simpa using h x hx
  have hfind : List.findIdx? (fun x => x.1 == r) (l₁ ++ (r, t) :: l₂) = some l₁.length := by
    rw [List.findIdx?_append, hnone, Option.none_or, List.findIdx?_cons]
    simp
  unfold completeRemove
  simp only [hfind]
  rw [List.eraseIdx_append_of_length_le (Nat.le_refl _)]
  simp

/-- The Task that a successful creation builds (App.tsx lines 185-198). -/
def createdTask (env : Env) (res : CreateActionResult) (desc : String) (amt : Int) : TaskObj :=
  { task := desc
    sats := some amt
    token := some
      { log := res.log
        lockingScript :=
          env.pdCreate [TODO_PROTO_ADDR.data, env.encrypt "todo list" "1" desc.data]
            "todo list" "1"
        txid := res.txid.getD ""
        outputIndex := some 0 } }

theorem handleCreateSubmit_success (env : Env) (res : CreateActionResult)
    (desc : String) (amt : Int) (tasks : List TaskObj)
    (hdesc : desc ≠ "") (h0 : amt ≠ 0) (h500 : ¬ amt < 500) :
    handleCreateSubmit env (.ok res) desc (some amt) tasks =
      (.success (createdTask env res desc amt), createdTask env res desc amt :: tasks,
        [.encryptCall, .pdCreateCall, .createActionCall]) := by
  simp [handleCreateSubmit, hdesc, h0, h500, createdTask]

/-! ## Claims -/

/-- Claim C1: round-trip law.  For every valid input (non-empty
description, amount at least 500) and collaborators meeting their
section-6 contracts (the codec decodes what it creates, decryption
inverts encryption under the same protocolID/keyID), the Task produced
by `handleCreateSubmit` carries a token whose `lockingScript` decodes to
exactly the two fields `[NAMESPACE_MARKER, ciphertext]`, and decrypting
that ciphertext under protocol "todo list" and key "1" returns the
original description exactly. -/
theorem c1_create_roundTrip (env : Env) (res : CreateActionResult)
    (desc : String) (amt : Int) (tasks : List TaskObj)
    (hdesc : desc ≠ "") (hamt : 500 ≤ amt)
    (hcodec : ∀ fs p k, env.pdDecode (env.pdCreate fs p k) = some fs)
    (hcrypt : ∀ p k m, env.decrypt p k (env.encrypt p k m) = some m) :
    ∃ newTask tok c,
      (handleCreateSubmit env (.ok res) desc (some amt) tasks).1 = .success newTask
      ∧ newTask.token = some tok
      ∧ env.pdDecode tok.lockingScript = some [TODO_PROTO_ADDR.data, c]
      ∧ (env.decrypt "todo list" "1" c).map String.mk = some desc := by
  have h0 : amt ≠ 0 := by omega
  have h500 : ¬ amt < 500 := by omega
  refine ⟨createdTask env res desc amt, _, env.encrypt "todo list" "1" desc.data,
    ?_, rfl, ?_, ?_⟩
  · rw [handleCreateSubmit_success env res desc amt tasks hdesc h0 h500]
  · exact hcodec [TODO_PROTO_ADDR.data, env.encrypt "todo list" "1" desc.data] "todo list" "1"
  · rw [hcrypt "todo list" "1" desc.data]
    simp [string_mk_data]

/-- Claim C1 witness at a concrete input: identity collaborators,
description "Buy milk", amount 1000. -/
theorem c1_create_roundTrip_witness :
    ∃ newTask tok c,
      (handleCreateSubmit idEnv (.ok okActionRes) "Buy milk" (some 1000) []).1 =
        .success newTask
      ∧ newTask.token = some tok
      ∧ idEnv.pdDecode tok.lockingScript = some [TODO_PROTO_ADDR.data, c]
      ∧ (idEnv.decrypt "todo list" "1" c).map String.mk = some "Buy milk" :=
  c1_create_roundTrip idEnv okActionRes "Buy milk" 1000 [] (by decide) (by decide)
    (fun _ _ _ => rfl) (fun _ _ _ => rfl)

/-- Claim C2: input validation.  Whenever the description is empty, or
the amount is NaN, zero, or below 500, `handleCreateSubmit` rejects with
a validation error, contacts no collaborator (empty call trace: no
encryption, no codec call, no ledger action), and leaves the Task
Collection unchanged. -/
theorem c2_create_validation (env : Env) (ledgerRes : Except String CreateActionResult)
    (desc : String) (amt : Option Int) (tasks : List TaskObj)
    (h : desc = "" ∨ amt = none ∨ amt = some 0 ∨ ∃ a, amt = some a ∧ a < 500) :
    ((handleCreateSubmit env ledgerRes desc amt tasks).1).isValidationError = true
    ∧ (handleCreateSubmit env ledgerRes desc amt tasks).2.1 = tasks
    ∧ (handleCreateSubmit env ledgerRes desc amt tasks).2.2 = [] := by
  by_cases hdesc : desc = ""
  · simp [handleCreateSubmit, hdesc, CreateOutcome.isValidationError]
  · rcases h with h | h | h | ⟨a, ha, hlt⟩
    · exact absurd h hdesc
    · subst h
      simp [handleCreateSubmit, hdesc, CreateOutcome.isValidationError]
    · subst h
      simp [handleCreateSubmit, hdesc, CreateOutcome.isValidationError]
    · subst ha
      by_cases h0 : a = 0
      · subst h0
        simp [handleCreateSubmit, hdesc, CreateOutcome.isValidationError]
      · simp [handleCreateSubmit, hdesc, h0, hlt, CreateOutcome.isValidationError]

/-- Claim C2 witness at a concrete input: empty description. -/
theorem c2_create_validation_witness :
    ((handleCreateSubmit idEnv (.ok okActionRes) "" (some 1000) []).1).isValidationError = true
    ∧ (handleCreateSubmit idEnv (.ok okActionRes) "" (some 1000) []).2.1 = []
    ∧ (handleCreateSubmit idEnv (.ok okActionRes) "" (some 1000) []).2.2 = [] :=
  c2_create_validation idEnv (.ok okActionRes) "" (some 1000) [] (Or.inl rfl)

/-- Claim C3: successful creation prepends.  On a successful creation
the new Task (with the supplied description and amount, the codec's
locking script, the ledger's txid and outputIndex 0) sits at index 0 of
the Task Collection, and every previously present Task is still present,
unchanged, shifted by one position (previous relative order kept). -/
theorem c3_create_prepends (env : Env) (res : CreateActionResult) (v : String)
    (desc : String) (amt : Int) (tasks : List TaskObj)
    (hdesc : desc ≠ "") (h0 : amt ≠ 0) (h500 : ¬ amt < 500) (hres : res.txid = some v) :
    ∃ newTask,
      (handleCreateSubmit env (.ok res) desc (some amt) tasks).1 = .success newTask
      ∧ (handleCreateSubmit env (.ok res) desc (some amt) tasks).2.1 = newTask :: tasks
      ∧ newTask.task = desc
      ∧ newTask.sats = some amt
      ∧ newTask.token = some
          { log := res.log
            lockingScript :=
              env.pdCreate [TODO_PROTO_ADDR.data, env.encrypt "todo list" "1" desc.data]
                "todo list" "1"
            txid := v
            outputIndex := some 0 }
      ∧ (handleCreateSubmit env (.ok res) desc (some amt) tasks).2.1.length = tasks.length + 1
      ∧ ∀ i : Nat, (handleCreateSubmit env (.ok res) desc (some amt) tasks).2.1[i + 1]? = tasks[i]? := by
  refine ⟨createdTask env res desc amt, ?_, ?_, rfl, rfl, ?_, ?_, ?_⟩
  · rw [handleCreateSubmit_success env res desc amt tasks hdesc h0 h500]
  · rw [handleCreateSubmit_success env res desc amt tasks hdesc h0 h500]
  · simp [createdTask, hres]
  · rw [handleCreateSubmit_success env res desc amt tasks hdesc h0 h500]
    simp
  · intro i
    rw [handleCreateSubmit_success env res desc amt tasks hdesc h0 h500]
    simp

/-- Claim C3 witness at a concrete input. -/
theorem c3_create_prepends_witness :
    ∃ newTask,
      (handleCreateSubmit idEnv (.ok okActionRes) "Buy milk" (some 1000) []).1 =
        .success newTask
      ∧ (handleCreateSubmit idEnv (.ok okActionRes) "Buy milk" (some 1000) []).2.1 =
        newTask :: []
      ∧ newTask.task = "Buy milk"
      ∧ newTask.sats = some 1000
      ∧ newTask.token = some
          { log := okActionRes.log
            lockingScript :=
              idEnv.pdCreate
                [TODO_PROTO_ADDR.data, idEnv.encrypt "todo list" "1" ("Buy milk").data]
                "todo list" "1"
            txid := "txid0"
            outputIndex := some 0 }
      ∧ (handleCreateSubmit idEnv (.ok okActionRes) "Buy milk" (some 1000) []).2.1.length =
        List.length ([] : List TaskObj) + 1
      ∧ ∀ i : Nat,
          (handleCreateSubmit idEnv (.ok okActionRes) "Buy milk" (some 1000) []).2.1[i + 1]? =
            ([] : List TaskObj)[i]? :=
  c3_create_prepends idEnv okActionRes "txid0" "Buy milk" 1000 [] (by decide) (by decide)
    (by decide) rfl

/-- Claim C4: listTasks ordering.  For every sequence of basket outputs
in ledger (oldest-first) order, the installed Task Collection is the
per-item decoded sequence reversed: it has the same length, its entry at
index i is the decode of the output at mirrored index, it does not
depend on the previous collection contents (wholly replaced), and on
outputs `[T1, T2, T3]` it is `[T3, T2, T1]` decoded. -/
theorem c4_listTasks_ordering (env : Env) (outs : List BasketOutput)
    (prevTasks prevTasks2 : List TaskObj) :
    (listTasks env (.ok outs) prevTasks).2.1.length = outs.length
    ∧ (∀ i : Nat, i < outs.length →
        (listTasks env (.ok outs) prevTasks).2.1[i]? =
          (outs[outs.length - 1 - i]?).map (decodeOneTask env))
    ∧ listTasks env (.ok outs) prevTasks = listTasks env (.ok outs) prevTasks2
    ∧ ∀ T1 T2 T3 : BasketOutput,
        (listTasks env (.ok [T1, T2, T3]) prevTasks).2.1 =
          [decodeOneTask env T3, decodeOneTask env T2, decodeOneTask env T1] := by
  refine ⟨?_, ?_, rfl, ?_⟩
  · simp [listTasks]
  · intro i hi
    have hi2 : i < (outs.map (decodeOneTask env)).length := by simpa using hi
    simp only [listTasks]
    rw [List.getElem?_reverse hi2]
    simp [List.getElem?_map]
  · intro T1 T2 T3
    simp [listTasks]

/-- Claim C4 witness at a concrete input: three outputs come back in the
mirror order. -/
theorem c4_listTasks_ordering_witness :
    (listTasks idEnv (.ok [goodOutput, goodOutput2, badOutput]) []).2.1 =
      [decodeOneTask idEnv badOutput, decodeOneTask idEnv goodOutput2,
        decodeOneTask idEnv goodOutput] :=
  (c4_listTasks_ordering idEnv [goodOutput, goodOutput2, badOutput] [] []).2.2.2
    goodOutput goodOutput2 badOutput

/-- Claim C5: per-item error degradation.  A basket result made of
outputs that all decode and decrypt successfully plus one output whose
decode or decrypt fails yields a collection with exactly N+1 entries: the
N good outputs each decode to a Task with its correctly decrypted
description and a populated token, and the one bad output contributes
exactly one placeholder entry carrying the fixed sentinel description;
no entry is dropped and the batch is not aborted. -/
theorem c5_listTasks_degradation (env : Env) (l₁ l₂ : List BasketOutput)
    (b : BasketOutput) (prev : List TaskObj)
    (h₁ : ∀ o ∈ l₁, decodeOk env o = true)
    (h₂ : ∀ o ∈ l₂, decodeOk env o = true)
    (hb : decodeOk env b = false) :
    (listTasks env (.ok (l₁ ++ b :: l₂)) prev).2.1.length = l₁.length + l₂.length + 1
    ∧ (listTasks env (.ok (l₁ ++ b :: l₂)) prev).2.1 =
        (l₂.map (decodeOneTask env)).reverse
          ++ errorPlaceholderTask b :: (l₁.map (decodeOneTask env)).reverse
    ∧ (listTasks env (.ok (l₁ ++ b :: l₂)) prev).2.1.countP
        (fun t => t.token.isNone) = 1
    ∧ (errorPlaceholderTask b).task = errSentinel
    ∧ ∀ o ∈ l₁ ++ l₂, ∃ fields c p,
        env.pdDecode o.outputScript = some fields
        ∧ fields[1]? = some c
        ∧ env.decrypt "todo list" "1" c = some p
        ∧ decodeOneTask env o =
          { task := String.mk p
            sats := some o.amount
            token := some
              { envelope := o.envelope
                lockingScript := o.outputScript
                txid := o.txid
                outputIndex := some o.vout } } := by
  have hmain : (listTasks env (.ok (l₁ ++ b :: l₂)) prev).2.1 =
      (l₂.map (decodeOneTask env)).reverse
        ++ errorPlaceholderTask b :: (l₁.map (decodeOneTask env)).reverse := by
    simp [listTasks, List.reverse_append, decodeOneTask_of_bad env b hb]
  refine ⟨?_, hmain, ?_, rfl, ?_⟩
  · rw [hmain]
    simp
    omega
  · rw [hmain]
    have hc1 : (l₁.map (decodeOneTask env)).countP (fun t => t.token.isNone) = 0 := by
      rw [List.countP_eq_zero]
      intro t ht
      obtain ⟨o, ho, rfl⟩ := List.mem_map.mp ht
      have := token_of_decodeOk env o (h₁ o ho)
      simp [Option.isNone_iff_eq_none]
      exact Option.isSome_iff_exists.mp this |>.elim fun x hx => by simp [hx]
    have hc2 : (l₂.map (decodeOneTask env)).countP (fun t => t.token.isNone) = 0 := by
      rw [List.countP_eq_zero]
      intro t ht
      obtain ⟨o, ho, rfl⟩ := List.mem_map.mp ht
      have := token_of_decodeOk env o (h₂ o ho)
      simp [Option.isNone_iff_eq_none]
      exact Option.isSome_iff_exists.mp this |>.elim fun x hx => by simp [hx]
    have hcb : (errorPlaceholderTask b).token.isNone = true := rfl
    rw [List.countP_append, List.countP_cons, List.countP_reverse, List.countP_reverse,
      hc1, hc2]
    simp [hcb]
  · intro o ho
    rcases List.mem_append.mp ho with ho1 | ho2
    · exact decodeOneTask_of_ok env o (h₁ o ho1)
    · exact decodeOneTask_of_ok env o (h₂ o ho2)

/-- Claim C5 witness at a concrete input: two good outputs around one
undecodable output give three entries, exactly one of them the
placeholder. -/
theorem c5_listTasks_degradation_witness :
    (listTasks idEnv (.ok ([goodOutput] ++ badOutput :: [goodOutput2])) []).2.1.length =
      List.length [goodOutput] + List.length [goodOutput2] + 1
    ∧ (listTasks idEnv (.ok ([goodOutput] ++ badOutput :: [goodOutput2])) []).2.1.countP
        (fun t => t.token.isNone) = 1 :=
  ⟨(c5_listTasks_degradation idEnv [goodOutput] [goodOutput2] badOutput []
      (by decide) (by decide) (by decide)).1,
    (c5_listTasks_degradation idEnv [goodOutput] [goodOutput2] badOutput []
      (by decide) (by decide) (by decide)).2.2.1⟩

/-- Claim C9: whole-query failure handling of the loading effect.  An
identity-unavailable failure (`ERR_NO_METANET_IDENTITY`) is suppressed
(no surfaced error, collection kept); every other failure is surfaced
with its message; and in every case — success, suppressed failure, or
surfaced failure — the loading flag ends up cleared. -/
theorem c9_listTasks_failure_handling (env : Env)
    (query : Except QueryError (List BasketOutput)) (tasks : List TaskObj) :
    (listTasks env query tasks).2.2 = false
    ∧ (∀ e, query = .error e → e.code = some "ERR_NO_METANET_IDENTITY" →
        (listTasks env query tasks).1 = .suppressed
        ∧ (listTasks env query tasks).2.1 = tasks)
    ∧ (∀ e, query = .error e → e.code ≠ some "ERR_NO_METANET_IDENTITY" →
        (listTasks env query tasks).1 = .surfacedError e.message
        ∧ (listTasks env query tasks).2.1 = tasks)
    ∧ ∀ outs, query = .ok outs → (listTasks env query tasks).1 = .loaded := by
  refine ⟨?_, ?_, ?_, ?_⟩
  · cases query with
    | ok outs => rfl
    | error e =>
      simp only [listTasks]
      split <;> rfl
  · intro e he hc
    subst he
    constructor <;> simp [listTasks, hc]
  · intro e he hc
    subst he
    constructor <;> simp [listTasks, hc]
  · intro outs h
    subst h
    rfl

/-- A concrete identity-unavailable query failure. -/
def identityError : QueryError :=
  { code := some "ERR_NO_METANET_IDENTITY", message := "no identity" }

/-- Claim C9 witness at a concrete input: the identity-unavailable error
is suppressed and the loading flag is cleared. -/
theorem c9_listTasks_failure_handling_witness :
    (listTasks idEnv (.error identityError) []).2.2 = false
    ∧ (listTasks idEnv (.error identityError) []).1 = .suppressed :=
  ⟨(c9_listTasks_failure_handling idEnv (.error identityError) []).1,
    ((c9_listTasks_failure_handling idEnv (.error identityError) []).2.1
      identityError rfl rfl).1⟩

theorem mem_of_mem_completeRemove (r : Nat) (tasks : List TaskRef) (x : TaskRef)
    (hx : x ∈ completeRemove r tasks) : x ∈ tasks := by
  unfold completeRemove at hx
  split at hx
  · exact List.mem_of_mem_eraseIdx hx
  · exact hx

/-- Claim C7 counterexample: with a null selected Task (and a codec that
returns an unlocking proof), completion rejects with the distinct error
of App.tsx line 253 ("No task selected."), not the incomplete-task-data
rejection of line 258 that the claim names for this case. -/
theorem c7_counterexample :
    (handleCompleteSubmit idEnv (.ok okActionRes) none []).1 =
      CompleteOutcome.errNoTaskSelected
    ∧ CompleteOutcome.errNoTaskSelected ≠ CompleteOutcome.errIncompleteTaskData :=
  ⟨rfl, by decide⟩

/-- Claim C7 as amended: for a selected Task whose token has an empty
txid or an undefined outputIndex, completion rejects as incomplete task
data; for a null selected Task it rejects as "no task selected"; in all
these cases no ledger action is submitted and the Task Collection is
identical before and after. -/
theorem c7_complete_precondition (env : Env) (ledgerRes : Except String CreateActionResult)
    (sel : Option TaskRef) (tasks : List TaskRef)
    (h : sel = none ∨ ∃ r t tok, sel = some (r, t) ∧ t.token = some tok
          ∧ (tok.txid = "" ∨ tok.outputIndex = none)) :
    ((handleCompleteSubmit env ledgerRes sel tasks).1 = .errNoTaskSelected
      ∨ (handleCompleteSubmit env ledgerRes sel tasks).1 = .errIncompleteTaskData)
    ∧ (sel = none → (handleCompleteSubmit env ledgerRes sel tasks).1 = .errNoTaskSelected)
    ∧ (∀ r t tok, sel = some (r, t) → t.token = some tok →
        (tok.txid = "" ∨ tok.outputIndex = none) →
        (handleCompleteSubmit env ledgerRes sel tasks).1 = .errIncompleteTaskData)
    ∧ (handleCompleteSubmit env ledgerRes sel tasks).2.1 = tasks
    ∧ CallEvent.createActionCall ∉ (handleCompleteSubmit env ledgerRes sel tasks).2.2 := by
  rcases h with rfl | ⟨r, t, tok, rfl, htok, hbad⟩
  · refine ⟨Or.inl rfl, fun _ => rfl, ?_, rfl, ?_⟩
    · intro r t tok hcon
      simp at hcon
    · simp [handleCompleteSubmit]
  · have heq : handleCompleteSubmit env ledgerRes (some (r, t)) tasks =
        (.errIncompleteTaskData, tasks, [.pdRedeemCall]) := by
      simp only [handleCompleteSubmit, htok]
      rw [if_pos hbad]
    rw [heq]
    refine ⟨Or.inr rfl, ?_, fun _ _ _ _ _ _ => rfl, rfl, ?_⟩
    · intro hcon
      simp at hcon
    · simp

/-- A concrete Task whose token has an empty txid. -/
def incompleteTask : TaskObj :=
  { task := "stub"
    sats := some 1000
    token := some { lockingScript := [], txid := "", outputIndex := some 0 } }

/-- Claim C7 amended-theorem witness at a concrete input: a Task with an
empty token txid. -/
theorem c7_complete_precondition_witness :
    (handleCompleteSubmit idEnv (.ok okActionRes) (some (0, incompleteTask)) []).1 =
      .errIncompleteTaskData
    ∧ (handleCompleteSubmit idEnv (.ok okActionRes) (some (0, incompleteTask)) []).2.1 = []
    ∧ CallEvent.createActionCall ∉
        (handleCompleteSubmit idEnv (.ok okActionRes) (some (0, incompleteTask)) []).2.2 :=
  have h := c7_complete_precondition idEnv (.ok okActionRes) (some (0, incompleteTask)) []
    (Or.inr ⟨0, incompleteTask,
      { lockingScript := [], txid := "", outputIndex := some 0 }, rfl, rfl, Or.inl rfl⟩)
  ⟨h.2.2.1 0 incompleteTask
      { lockingScript := [], txid := "", outputIndex := some 0 } rfl rfl (Or.inl rfl),
    h.2.2.2.1, h.2.2.2.2⟩

/-- Claim C8: successful completion removes exactly the selected
instance.  For a selected Task present in the collection (by reference),
with a complete token and a successful ledger action, the resulting
collection is the input with exactly that occurrence removed: length
decreases by one, the surrounding entries are unchanged and keep their
order (including any structurally identical Task under a different
reference), and the selected reference is gone when it occurred only
once. -/
theorem c8_complete_removes (env : Env) (res : CreateActionResult)
    (r : Nat) (t : TaskObj) (tok : Token) (l₁ l₂ : List TaskRef)
    (htok : t.token = some tok) (htxid : tok.txid ≠ "") (hidx : tok.outputIndex ≠ none)
    (hleft : ∀ x ∈ l₁, x.1 ≠ r) :
    (handleCompleteSubmit env (.ok res) (some (r, t)) (l₁ ++ (r, t) :: l₂)).1 = .completed
    ∧ (handleCompleteSubmit env (.ok res) (some (r, t)) (l₁ ++ (r, t) :: l₂)).2.1 = l₁ ++ l₂
    ∧ (handleCompleteSubmit env (.ok res) (some (r, t)) (l₁ ++ (r, t) :: l₂)).2.1.length + 1 =
        (l₁ ++ (r, t) :: l₂).length
    ∧ ((∀ x ∈ l₂, x.1 ≠ r) →
        ∀ x ∈ (handleCompleteSubmit env (.ok res) (some (r, t)) (l₁ ++ (r, t) :: l₂)).2.1,
          x.1 ≠ r) := by
  have hcond : ¬ (tok.txid = "" ∨ tok.outputIndex = none) := by
    rintro (hc | hc)
    · exact htxid hc
    · exact hidx hc
  have heq : handleCompleteSubmit env (.ok res) (some (r, t)) (l₁ ++ (r, t) :: l₂) =
      (.completed, completeRemove r (l₁ ++ (r, t) :: l₂),
        [.pdRedeemCall, .createActionCall]) := by
    simp only [handleCompleteSubmit, htok]
    rw [if_neg hcond]
  rw [heq]
  have hrem := completeRemove_append r t l₁ l₂ hleft
  refine ⟨rfl, hrem, ?_, ?_⟩
  · rw [hrem]
    simp
    omega
  · intro hright x hx
    rw [hrem] at hx
    rcases List.mem_append.mp hx with hx1 | hx2
    · exact hleft x hx1
    · exact hright x hx2

/-- A concrete complete Task for completion witnesses. -/
def completableTask : TaskObj :=
  { task := "done"
    sats := some 500
    token := some { lockingScript := [], txid := "txid0", outputIndex := some 0 } }

/-- Claim C8 witness at a concrete input: the collection holds a
structurally identical Task under reference 1 and the selected Task
under reference 5; only the reference-5 instance is removed. -/
theorem c8_complete_removes_witness :
    (handleCompleteSubmit idEnv (.ok okActionRes) (some (5, completableTask))
        ([(1, completableTask)] ++ (5, completableTask) :: [])).1 = .completed
    ∧ (handleCompleteSubmit idEnv (.ok okActionRes) (some (5, completableTask))
        ([(1, completableTask)] ++ (5, completableTask) :: [])).2.1 =
      [(1, completableTask)] ++ [] :=
  have h := c8_complete_removes idEnv okActionRes 5 completableTask
    { lockingScript := [], txid := "txid0", outputIndex := some 0 }
    [(1, completableTask)] [] rfl (by decide) (by decide) (by decide)
  ⟨h.1, h.2.1⟩

/-- Claim C6 counterexample: the collection installed by the loading
effect on a single undecodable output consists of the placeholder entry,
which has no token field at all; the claimed invariant that every
present Task (placeholders included) carries a fully-populated token is
false at this input. -/
theorem c6_counterexample :
    ((listTasks idEnv (.ok [badOutput]) []).2.1.all fun t => t.token.isSome) = false :=
  rfl

/-- Claim C6 as amended: after any of the three operations, every Task
in the collection is either a Task that was already present, a Task with
a fully-populated token (creation inserts a token with outputIndex 0;
the loading success path a token with the output's txid and vout), or a
placeholder from the per-item failure path, which carries no token field
(token is undefined) but retains the raw output's txid and vout at top
level together with the sentinel description. -/
theorem c6_token_invariant (env : Env) :
    (∀ ledgerRes desc amt tasks,
        ∀ x ∈ (handleCreateSubmit env ledgerRes desc amt tasks).2.1,
          x ∈ tasks ∨ ∃ tok, x.token = some tok ∧ tok.outputIndex = some 0)
    ∧ (∀ outs prev,
        ∀ x ∈ (listTasks env (.ok outs) prev).2.1,
          (∃ tok, x.token = some tok)
          ∨ (x.token = none ∧ x.task = errSentinel
              ∧ x.txid.isSome = true ∧ x.vout.isSome = true))
    ∧ ∀ ledgerRes sel tasks,
        ∀ x ∈ (handleCompleteSubmit env ledgerRes sel tasks).2.1, x ∈ tasks := by
  refine ⟨?_, ?_, ?_⟩
  · intro ledgerRes desc amt tasks x hx
    by_cases hdesc : desc = ""
    · subst hdesc
      simp [handleCreateSubmit] at hx
      exact Or.inl hx
    · cases amt with
      | none =>
        simp [handleCreateSubmit, hdesc] at hx
        exact Or.inl hx
      | some a =>
        by_cases h0 : a = 0
        · subst h0
          simp [handleCreateSubmit, hdesc] at hx
          exact Or.inl hx
        · by_cases h500 : a < 500
          · simp [handleCreateSubmit, hdesc, h0, h500] at hx
            exact Or.inl hx
          · cases ledgerRes with
            | error msg =>
              simp [handleCreateSubmit, hdesc, h0, h500] at hx
              exact Or.inl hx
            | ok res =>
              rw [handleCreateSubmit_success env res desc a tasks hdesc h0 h500] at hx
              rcases List.mem_cons.mp hx with hx1 | hx2
              · subst hx1
                exact Or.inr ⟨_, rfl, rfl⟩
              · exact Or.inl hx2
  · intro outs prev x hx
    simp only [listTasks] at hx
    rw [List.mem_reverse] at hx
    obtain ⟨o, ho, rfl⟩ := List.mem_map.mp hx
    by_cases hok : decodeOk env o = true
    · obtain ⟨fields, c, p, _, _, _, heq⟩ := decodeOneTask_of_ok env o hok
      rw [heq]
      exact Or.inl ⟨_, rfl⟩
    · rw [decodeOneTask_of_bad env o (by simpa using hok)]
      exact Or.inr ⟨rfl, rfl, rfl, rfl⟩
  · intro ledgerRes sel tasks x hx
    cases sel with
    | none => simpa [handleCompleteSubmit] using hx
    | some s =>
      cases htok : s.2.token with
      | none =>
        simp [handleCompleteSubmit, htok] at hx
        exact hx
      | some tok =>
        by_cases hcond : tok.txid = "" ∨ tok.outputIndex = none
        · simp only [handleCompleteSubmit, htok] at hx
          rw [if_pos hcond] at hx
          exact hx
        · cases ledgerRes with
          | error msg =>
            simp only [handleCompleteSubmit, htok] at hx
            rw [if_neg hcond] at hx
            exact hx
          | ok res =>
            simp only [handleCompleteSubmit, htok] at hx
            rw [if_neg hcond] at hx
            exact mem_of_mem_completeRemove s.1 tasks x hx

/-- Claim C6 amended-theorem witness at a concrete input: the
placeholder produced for the undecodable output has no token but keeps
the raw txid/vout and the sentinel description. -/
theorem c6_token_invariant_witness :
    (∃ tok, (errorPlaceholderTask badOutput).token = some tok)
    ∨ ((errorPlaceholderTask badOutput).token = none
        ∧ (errorPlaceholderTask badOutput).task = errSentinel
        ∧ (errorPlaceholderTask badOutput).txid.isSome = true
        ∧ (errorPlaceholderTask badOutput).vout.isSome = true) :=
  (c6_token_invariant idEnv).2.1 [badOutput] [] (errorPlaceholderTask badOutput) (by decide)

/-- Claim C10 (implicit): when the successful ledger response of
creation carries no txid, the new Task is still inserted at the head of
the collection, with its token txid defaulted to the empty string — and
a later completion of that Task is rejected by the incomplete-task-data
precondition check, without any ledger action and without changing the
collection. -/
theorem c10_missing_txid (env : Env) (lg : Option String) (desc : String) (amt : Int)
    (tasks : List TaskObj) (ledgerRes2 : Except String CreateActionResult)
    (r : Nat) (tasks2 : List TaskRef)
    (hdesc : desc ≠ "") (h0 : amt ≠ 0) (h500 : ¬ amt < 500) :
    ∃ t tok,
      (handleCreateSubmit env (.ok { txid := none, log := lg }) desc (some amt) tasks).1 =
        .success t
      ∧ (handleCreateSubmit env (.ok { txid := none, log := lg }) desc (some amt) tasks).2.1 =
        t :: tasks
      ∧ t.token = some tok
      ∧ tok.txid = ""
      ∧ (handleCompleteSubmit env ledgerRes2 (some (r, t)) tasks2).1 = .errIncompleteTaskData
      ∧ (handleCompleteSubmit env ledgerRes2 (some (r, t)) tasks2).2.1 = tasks2
      ∧ CallEvent.createActionCall ∉
          (handleCompleteSubmit env ledgerRes2 (some (r, t)) tasks2).2.2 := by
  have heq : handleCompleteSubmit env ledgerRes2
      (some (r, createdTask env { txid := none, log := lg } desc amt)) tasks2 =
      (.errIncompleteTaskData, tasks2, [.pdRedeemCall]) := by
    simp [handleCompleteSubmit, createdTask]
  refine ⟨createdTask env { txid := none, log := lg } desc amt,
    { log := lg
      lockingScript :=
        env.pdCreate [TODO_PROTO_ADDR.data, env.encrypt "todo list" "1" desc.data]
          "todo list" "1"
      txid := ""
      outputIndex := some 0 }, ?_, ?_, rfl, rfl, ?_, ?_, ?_⟩
  · rw [handleCreateSubmit_success env { txid := none, log := lg } desc amt tasks hdesc h0 h500]
  · rw [handleCreateSubmit_success env { txid := none, log := lg } desc amt tasks hdesc h0 h500]
  · rw [heq]
  · rw [heq]
  · rw [heq]
    simp

/-- Claim C10 witness at a concrete input. -/
theorem c10_missing_txid_witness :
    ∃ t tok,
      (handleCreateSubmit idEnv (.ok { txid := none, log := none }) "Buy milk" (some 1000)
          []).1 = .success t
      ∧ (handleCreateSubmit idEnv (.ok { txid := none, log := none }) "Buy milk" (some 1000)
          []).2.1 = t :: []
      ∧ t.token = some tok
      ∧ tok.txid = ""
      ∧ (handleCompleteSubmit idEnv (.ok okActionRes) (some (0, t)) []).1 =
        .errIncompleteTaskData
      ∧ (handleCompleteSubmit idEnv (.ok okActionRes) (some (0, t)) []).2.1 = []
      ∧ CallEvent.createActionCall ∉
          (handleCompleteSubmit idEnv (.ok okActionRes) (some (0, t)) []).2.2 :=
  c10_missing_txid idEnv none "Buy milk" 1000 [] (.ok okActionRes) 0 []
    (by decide) (by decide) (by decide)

end ToDo
